import Mathlib

/-!
Shallow embedding of `src/colpali_engine/evaluation/retrieval_evaluator.py`
(class `CustomRetrievalEvaluator`).

Modelling conventions:
* a rank-1 tensor (a single-vector embedding of dimension `d`) is a `List Int`;
* a rank-2 tensor (a multi-vector embedding: a sequence of token vectors) is a
  `List (List Int)`;
* exact integer arithmetic stands in for floating point: the claims under
  study are about the algebraic shape of the reductions, not about rounding;
* Python exceptions are modelled with `Except`: the explicit
  `raise ValueError(...)` statements and the `ValueError` raised by
  `range(0, n, 0)` become `EvalError.valueError`, the `assert` in `evaluate`
  becomes `EvalError.assertionError`.  Errors raised by the tensor runtime
  itself (shape mismatches in `torch.stack`/`einsum`, reductions over an
  empty dimension) are RuntimeErrors in torch, are not `ValueError`s, and are
  outside the embedding; theorems carry nonemptiness hypotheses where those
  boundary cases would be hit.
-/

deriving instance DecidableEq for Except

namespace Colpali

/-- Python exception kinds thrown by the code under study. -/
inductive EvalError where
  | valueError (msg : String)
  | assertionError (msg : String)
deriving DecidableEq, Repr

/-- Dot product of two embedding vectors: the contraction performed by
`torch.einsum("bd,cd->bc", ...)` at one `(b, c)` cell, and by
`torch.einsum("bnd,csd->bcns", ...)` at one `(b, c, n, s)` cell. -/
def dot (a b : List Int) : Int := (List.zipWith (fun x y => x * y) a b).sum

/-- Embedding of `CustomRetrievalEvaluator.get_single_vector_scores`
(lines 76-93): after the two empty-input checks, `torch.stack` the vectors
and contract with `einsum("bd,cd->bc")`, i.e. the score matrix of pairwise
dot products.  (`torch.stack` additionally requires all vectors to share one
dimension `d`; a mismatch raises a RuntimeError in torch, not a `ValueError`,
and is not modelled.  The `.to(self.device)` moves change no value.) -/
def get_single_vector_scores (qs ps : List (List Int)) :
    Except EvalError (List (List Int)) :=
  if qs.length = 0 then .error (.valueError "No querie(s) provided")
  else if ps.length = 0 then .error (.valueError "No passage(s) provided")
  else .ok (qs.map (fun q => ps.map (fun p => dot q p)))

/-- Longest token count among a batch of token matrices: the length that
`torch.nn.utils.rnn.pad_sequence` pads every sequence of the batch to. -/
def maxLen (ms : List (List (List Int))) : Nat :=
  (ms.map List.length).foldr max 0

/-- Zero-pad one token matrix to `L` token rows; the padding rows are the
all-zero vector of the embedding dimension `d`, exactly what
`pad_sequence(..., padding_value=0)` appends. -/
def padTo (d L : Nat) (m : List (List Int)) : List (List Int) :=
  m ++ List.replicate (L - m.length) (List.replicate d 0)

/-- Embedding of `torch.nn.utils.rnn.pad_sequence(batch, batch_first=True,
padding_value=0)`: every token matrix of the batch is zero-padded to the
longest token count of the batch.  (`d` is the trailing embedding dimension
shared by the tensors.) -/
def pad_sequence (d : Nat) (ms : List (List (List Int))) :
    List (List (List Int)) :=
  ms.map (padTo d (maxLen ms))

/-- One cell of `einsum("bnd,csd->bcns", ...).max(dim=3)[0]` before the sum:
for a fixed query token `qt`, the maximum over the passage's token rows of
the dot product.  torch's `max(dim=3)` requires the reduced dimension to be
nonzero (otherwise it raises, which is not a `ValueError`); the embedding
returns `0` for an empty passage matrix, and the theorems below avoid that
boundary via nonemptiness hypotheses. -/
def maxDot (p : List (List Int)) (qt : List Int) : Int :=
  ((p.map (fun pt => dot qt pt)).max?).getD 0

/-- One `(b, c)` cell of
`einsum("bnd,csd->bcns", qs_batch, ps_batch).max(dim=3)[0].sum(dim=2)`:
sum over the (padded) query token rows of the maximum over the (padded)
passage token rows of the dot product. -/
def maxSimCell (q p : List (List Int)) : Int :=
  (q.map (fun qt => maxDot p qt)).sum

/-- Fuel-driven worker for `chunks`; the fuel is the list length, which
bounds the number of iterations of `for i in range(0, len(l), bs)`. -/
def chunksGo (fuel bs : Nat) (l : List α) : List (List α) :=
  match fuel, l with
  | 0, _ => []
  | _, [] => []
  | fuel + 1, l => l.take bs :: chunksGo fuel bs (l.drop bs)

/-- The successive slices `l[i : i + bs]` for `i in range(0, len(l), bs)`.
For `bs ≥ 1` this is exactly the Python iteration; `bs = 0` never reaches
this point because `range(0, n, 0)` raises first (see
`get_multi_vector_scores`). -/
def chunks (bs : Nat) (l : List α) : List (List α) :=
  chunksGo l.length bs l

/-- Embedding of `CustomRetrievalEvaluator.get_multi_vector_scores`
(lines 95-125): after the two empty-input checks (and Python's own
`ValueError` from `range(0, n, 0)` when `batch_size = 0`), the queries and
passages are processed in batches of `bs`; each batch is zero-padded with
`pad_sequence`, scored with
`einsum("bnd,csd->bcns", ...).max(dim=3)[0].sum(dim=2)`, the per-passage
blocks are concatenated along dim 1 (here: row-wise, by flattening the list
of row segments of each padded query) and the per-query blocks along dim 0
(the outer flatten). -/
def get_multi_vector_scores (d : Nat) (qs ps : List (List (List Int)))
    (bs : Nat := 128) : Except EvalError (List (List Int)) :=
  if qs.length = 0 then .error (.valueError "No querie(s) provided")
  else if ps.length = 0 then .error (.valueError "No passage(s) provided")
  else if bs = 0 then .error (.valueError "range() arg 3 must not be zero")
  else .ok <| ((chunks bs qs).map (fun qsb =>
    (pad_sequence d qsb).map (fun q =>
      ((chunks bs ps).map (fun psb =>
        (pad_sequence d psb).map (fun p => maxSimCell q p))).flatten))).flatten

/-- The MaxSim value as the specification states it (spec glossary, claim
C1): for each token vector of the query, the maximum dot product across the
passage's own token vectors (no padding), summed over the query's tokens.
This is the spec-side definition to be compared with the code-side
`get_multi_vector_scores`. -/
def maxSimSpec (q p : List (List Int)) : Int :=
  (q.map (fun qt => ((p.map (fun pt => dot qt pt)).max?).getD 0)).sum

/-- A `torch.Tensor` as received by `evaluate`: rank 1 (a single-vector
embedding) or rank 2 (a multi-vector embedding). -/
inductive Tensor where
  | vec (v : List Int)
  | mat (m : List (List Int))
deriving DecidableEq, Repr

/-- View a tensor as a rank-2 token matrix, as the multi-vector path expects.
A rank-1 tensor on that path would make torch's `einsum("bnd,...")` raise a
RuntimeError; the embedding views it as a one-token matrix instead, and no
claim exercises that case. -/
def Tensor.toMat : Tensor → List (List Int)
  | .mat m => m
  | .vec v => [v]

/-- View a tensor as a rank-1 vector, as the single-vector path expects.
A rank-2 tensor on that path would make torch's `einsum("bd,...")` raise a
RuntimeError; the embedding takes the first row instead, and no claim
exercises that case. -/
def Tensor.toVec : Tensor → List Int
  | .vec v => v
  | .mat m => m.headD []

/-- Trailing embedding dimension of a tensor, used as the width of the
zero-padding rows (`pad_sequence` keeps the trailing dimension).  Scores do
not depend on it: a zero row has dot product `0` with everything. -/
def Tensor.dim : Tensor → Nat
  | .vec v => v.length
  | .mat m => (m.headD []).length

/-- The fields of `CustomRetrievalEvaluator` as set by `__init__`
(lines 17-26).  `mteb_evaluator` is an external `RetrievalEvaluator` object
constructed from `mteb_evaluator_args`; it is modelled by an opaque
fingerprint of those arguments, since this code only ever calls methods on
it.  `device` is the string resolved by `get_torch_device`. -/
structure CustomRetrievalEvaluator where
  is_multi_vector : Bool
  mteb_evaluator_args : List (String × Int)
  mteb_evaluator : List (String × Int)
  device : String
deriving DecidableEq, Repr

/-- The tail of `evaluate` (lines 38-46) after the scorer call: a raised
error from the scorer propagates; otherwise the `assert
scores.shape[0] == len(qs)` either passes (and the scores are returned,
unchanged by the `float32`/`cpu`/`numpy` conversions) or raises
`AssertionError`.  Lines 40-43 compute and log a top-1 accuracy that does
not flow into the returned value. -/
def evaluate_finish (nq : Nat) (scores : Except EvalError (List (List Int))) :
    Except EvalError (List (List Int)) :=
  match scores with
  | .error e => .error e
  | .ok m =>
    if m.length = nq then .ok m
    else .error (.assertionError
      ("Expected " ++ toString nq ++ " scores, got " ++ toString m.length))

/-- State-passing embedding of `CustomRetrievalEvaluator.evaluate`
(lines 28-46): the method receives `self`, `qs`, `ps` and could in principle
assign fields of `self` or mutate the lists; the body only reads
`self.is_multi_vector` and `self.device`, and only slices the lists, so the
final state components equal the initial ones. -/
def evaluateSt (self : CustomRetrievalEvaluator) (qs ps : List Tensor) :
    Except EvalError (List (List Int))
      × CustomRetrievalEvaluator × List Tensor × List Tensor :=
  let d := (qs.headD (.mat [])).dim
  let scores :=
    if self.is_multi_vector then
      get_multi_vector_scores d (qs.map Tensor.toMat) (ps.map Tensor.toMat) 128
    else
      get_single_vector_scores (qs.map Tensor.toVec) (ps.map Tensor.toVec)
  (evaluate_finish qs.length scores, self, qs, ps)

/-- `CustomRetrievalEvaluator.evaluate`: the returned score matrix. -/
def evaluate (self : CustomRetrievalEvaluator) (qs ps : List Tensor) :
    Except EvalError (List (List Int)) :=
  (evaluateSt self qs ps).1

/-- State-passing form of `get_single_vector_scores`: the method reads
`self.device` for the two `.to(self.device)` moves (which change no value)
and assigns no field, so the state components are returned unchanged. -/
def get_single_vector_scoresSt (self : CustomRetrievalEvaluator)
    (qs ps : List (List Int)) :
    Except EvalError (List (List Int))
      × CustomRetrievalEvaluator × List (List Int) × List (List Int) :=
  (get_single_vector_scores qs ps, self, qs, ps)

/-- State-passing form of `get_multi_vector_scores`: the method reads
`self.device` for the `.to(self.device)` moves (which change no value) and
assigns no field, so the state components are returned unchanged. -/
def get_multi_vector_scoresSt (self : CustomRetrievalEvaluator) (d : Nat)
    (qs ps : List (List (List Int))) (bs : Nat := 128) :
    Except EvalError (List (List Int))
      × CustomRetrievalEvaluator
      × List (List (List Int)) × List (List (List Int)) :=
  (get_multi_vector_scores d qs ps bs, self, qs, ps)

/-- Python `key.split('@')`, on the character list of the key: split at every
occurrence of the separator, keeping empty pieces. -/
def splitOnChar (c : Char) : List Char → List (List Char)
  | [] => [[]]
  | a :: l =>
    if a = c then [] :: splitOnChar c l
    else
      match splitOnChar c l with
      | [] => [[a]]
      | s :: ss => (a :: s) :: ss

/-- The `k.split('@')[1]` expression of `compute_metrics`: the piece of the
key after the first `'@'`.  Python raises an IndexError (not a `ValueError`)
on a key with no `'@'`; the embedding returns `""` there, and the claims
only concern keys of the form `name@k`. -/
def kpart (key : String) : String :=
  ⟨(splitOnChar '@' key.data).getD 1 []⟩

/-- One `{f"<tag>_at_{k.split('@')[1]}": v for (k, v) in d.items()}`
comprehension of `compute_metrics`: `tag` is the full literal up to the
brace, e.g. `"ndcg_at_"`. -/
def renamePairs (tag : String) (d : List (String × α)) : List (String × α) :=
  d.map (fun kv => (tag ++ kpart kv.1, kv.2))

/-- Insertion of one key/value pair into a Python dict: an existing key is
overwritten in place, a new key is appended in insertion order. -/
def dictInsert (d : List (String × α)) (kv : String × α) :
    List (String × α) :=
  if (d.map Prod.fst).contains kv.1 then
    d.map (fun p => if p.1 = kv.1 then (p.1, kv.2) else p)
  else d ++ [kv]

/-- The dict built by a `{**a, **b, ...}` literal from the concatenated
pairs, later pairs overriding earlier ones. -/
def dictOfPairs (l : List (String × α)) : List (String × α) :=
  l.foldl dictInsert []

/-- Embedding of `CustomRetrievalEvaluator.compute_metrics` (lines 48-74).
The metric dictionaries produced by the external mteb evaluator are
parameters: `ndcg`, `mapd`, `recall`, `precision`, `naucs` from
`self.mteb_evaluator.evaluate(...)` and the pair `mrr` from
`self.mteb_evaluator.evaluate_custom(..., "mrr")`, of which the code uses
`mrr[0]`.  The result is the `{**...}` merge of the six renamed
comprehensions, in source order.  Metric values are floats the code never
inspects, hence the value type is a parameter `α`. -/
def compute_metrics (ndcg mapd recalld precision naucs : List (String × α))
    (mrr : List (String × α) × List (String × α)) : List (String × α) :=
  dictOfPairs
    (renamePairs "ndcg_at_" ndcg ++ renamePairs "map_at_" mapd ++
      renamePairs "recall_at_" recalld ++ renamePairs "precision_at_" precision ++
      renamePairs "mrr_at_" mrr.1 ++ renamePairs "naucs_at_" naucs)

/-- The row that `get_multi_vector_scores` computes for one (unpadded) query
token matrix `q`: per passage batch, each passage is padded to its batch's
longest token count and scored against `q`, and the segments are
concatenated.  `get_multi_vector_scores` returns exactly `qs.map (mvRow d bs
ps)` (theorem `get_multi_vector_scores_eq_map`): the query-side padding
contributes zero rows with zero dot products and drops out of the sums. -/
def mvRow (d bs : Nat) (ps : List (List (List Int)))
    (q : List (List Int)) : List Int :=
  ((chunks bs ps).map (fun psb =>
    psb.map (fun p => maxSimCell q (padTo d (maxLen psb) p)))).flatten

/-! ### Helper lemmas -/

/-- The all-zero vector has dot product `0` with every vector. -/
theorem dot_replicate_zero_left (d : Nat) (v : List Int) :
    dot (List.replicate d 0) v = 0 := by
  induction d generalizing v with
  | zero => simp [dot]
  | succ d ih =>
    cases v with
    | nil => simp [dot]
    | cons a v =>
      simp only [dot, List.replicate_succ, List.zipWith_cons_cons, List.sum_cons] at ih ⊢
      rw [ih]; ring

/-- Helper: the maximum of a list of zeros (with default `0`) is `0`. -/
theorem max?_replicate_zero_getD (n : Nat) :
    ((List.replicate n (0 : Int)).max?).getD 0 = 0 := by
  induction n with
  | zero => simp
  | succ n ih =>
    rw [List.replicate_succ, List.max?_cons]
    cases h : (List.replicate n (0 : Int)).max? with
    | none => simp [h]
    | some m =>
      rw [h] at ih
      simp only [h, Option.elim_some, Option.getD_some] at ih ⊢
      simp [ih]

/-- An all-zero query token row scores `0` against any passage matrix. -/
theorem maxDot_replicate_zero (p : List (List Int)) (d : Nat) :
    maxDot p (List.replicate d 0) = 0 := by
  unfold maxDot
  have h : p.map (fun pt => dot (List.replicate d 0) pt)
      = List.replicate p.length 0 := by
    induction p with
    | nil => simp
    | cons pt p ih => simp [dot_replicate_zero_left, ih, List.replicate_succ]
  rw [h, max?_replicate_zero_getD]

/-- Appending all-zero token rows to the query matrix (exactly what the
query-side `pad_sequence` does) leaves a MaxSim cell unchanged: each zero
row contributes a maximum of `0` to the sum. -/
theorem maxSimCell_append_zero_rows (q p : List (List Int)) (t d : Nat) :
    maxSimCell (q ++ List.replicate t (List.replicate d 0)) p
      = maxSimCell q p := by
  unfold maxSimCell
  rw [List.map_append, List.sum_append, List.map_replicate,
    maxDot_replicate_zero, List.sum_replicate]
  simp

/-- Query-side padding drops out of a whole row of scores. -/
theorem mvRow_padTo (d bs d2 L : Nat) (ps : List (List (List Int)))
    (q : List (List Int)) :
    mvRow d bs ps (padTo d2 L q) = mvRow d bs ps q := by
  unfold mvRow padTo
  simp only [maxSimCell_append_zero_rows]

/-- Unfolding equation for `chunksGo` on a nonempty list with fuel left. -/
theorem chunksGo_cons_eq (fuel bs : Nat) (a : α) (l : List α) :
    chunksGo (fuel + 1) bs (a :: l)
      = (a :: l).take bs :: chunksGo fuel bs ((a :: l).drop bs) := rfl

/-- The chunks of a list, concatenated, give the list back. -/
theorem chunksGo_flatten (bs : Nat) (hbs : bs ≠ 0) :
    ∀ (fuel : Nat) (l : List α), l.length ≤ fuel →
      (chunksGo fuel bs l).flatten = l := by
  intro fuel
  induction fuel with
  | zero =>
    intro l hf
    have : l = [] := List.length_eq_zero.mp (Nat.le_zero.mp hf)
    subst this; rfl
  | succ fuel ih =>
    intro l hf
    cases l with
    | nil => rfl
    | cons a l =>
      rw [chunksGo_cons_eq, List.flatten_cons,
        ih ((a :: l).drop bs)
          (by simp only [List.length_drop, List.length_cons] at hf ⊢; omega)]
      exact List.take_append_drop bs (a :: l)

/-- `chunks` version of `chunksGo_flatten`. -/
theorem chunks_flatten (bs : Nat) (hbs : bs ≠ 0) (l : List α) :
    (chunks bs l).flatten = l :=
  chunksGo_flatten bs hbs l.length l le_rfl

/-- Every chunk is nonempty (for a positive batch size). -/
theorem ne_nil_of_mem_chunksGo (bs : Nat) (hbs : bs ≠ 0) :
    ∀ (fuel : Nat) (l : List α) (ch : List α),
      ch ∈ chunksGo fuel bs l → ch ≠ [] := by
  intro fuel
  induction fuel with
  | zero => intro l ch h; cases l <;> exact absurd h (List.not_mem_nil ch)
  | succ fuel ih =>
    intro l ch h
    cases l with
    | nil => cases h
    | cons a l =>
      rw [chunksGo_cons_eq, List.mem_cons] at h
      rcases h with h | h
      · subst h
        cases bs with
        | zero => exact absurd rfl hbs
        | succ bs => simp
      · exact ih _ _ h

/-- Every element of a chunk is an element of the original list. -/
theorem mem_of_mem_chunks (bs : Nat) (hbs : bs ≠ 0) (l : List α)
    (ch : List α) (x : α) (hch : ch ∈ chunks bs l) (hx : x ∈ ch) : x ∈ l := by
  rw [← chunks_flatten bs hbs l]
  exact List.mem_flatten.mpr ⟨ch, hch, hx⟩

/-- Central structural fact about `get_multi_vector_scores`: on accepted
inputs it returns one row per query, in order, and each row is the one
computed by `mvRow` from the query's own (unpadded) token matrix — the
query-side batching and zero-padding have no effect on the values. -/
theorem get_multi_vector_scores_eq_map (d : Nat)
    (qs ps : List (List (List Int))) (bs : Nat)
    (hq : qs ≠ []) (hp : ps ≠ []) (hbs : bs ≠ 0) :
    get_multi_vector_scores d qs ps bs = .ok (qs.map (mvRow d bs ps)) := by
  unfold get_multi_vector_scores
  rw [if_neg (by simpa using hq), if_neg (by simpa using hp), if_neg hbs]
  congr 1
  have hinner : ∀ q : List (List Int),
      ((chunks bs ps).map (fun psb =>
        (pad_sequence d psb).map (fun p => maxSimCell q p))).flatten
        = mvRow d bs ps q := by
    intro q
    unfold mvRow pad_sequence
    congr 1
    refine List.map_congr_left (fun psb _ => ?_)
    rw [List.map_map]
    rfl
  calc ((chunks bs qs).map (fun qsb =>
          (pad_sequence d qsb).map (fun q =>
            ((chunks bs ps).map (fun psb =>
              (pad_sequence d psb).map (fun p => maxSimCell q p))).flatten))).flatten
      = ((chunks bs qs).map (fun qsb => qsb.map (mvRow d bs ps))).flatten := by
        congr 1
        refine List.map_congr_left (fun qsb _ => ?_)
        unfold pad_sequence
        rw [List.map_map]
        refine List.map_congr_left (fun q _ => ?_)
        show ((chunks bs ps).map (fun psb =>
          (pad_sequence d psb).map
            (fun p => maxSimCell (padTo d (maxLen qsb) q) p))).flatten
          = mvRow d bs ps q
        rw [hinner (padTo d (maxLen qsb) q), mvRow_padTo]
    _ = qs.map (mvRow d bs ps) := by
        rw [← List.map_flatten, chunks_flatten bs hbs qs]

/-- An `.ok` result of `get_multi_vector_scores` forces all three input
guards to have passed. -/
theorem get_multi_vector_scores_ok_cond {d : Nat}
    {qs ps : List (List (List Int))} {bs : Nat} {m : List (List Int)}
    (h : get_multi_vector_scores d qs ps bs = .ok m) :
    qs ≠ [] ∧ ps ≠ [] ∧ bs ≠ 0 := by
  unfold get_multi_vector_scores at h
  by_cases h1 : qs.length = 0
  · rw [if_pos h1] at h; cases h
  by_cases h2 : ps.length = 0
  · rw [if_neg h1, if_pos h2] at h; cases h
  by_cases h3 : bs = 0
  · rw [if_neg h1, if_neg h2, if_pos h3] at h; cases h
  exact ⟨by simpa using h1, by simpa using h2, h3⟩

/-- A row of `mvRow` has one entry per passage. -/
theorem length_mvRow (d bs : Nat) (hbs : bs ≠ 0)
    (ps : List (List (List Int))) (q : List (List Int)) :
    (mvRow d bs ps q).length = ps.length := by
  unfold mvRow
  rw [List.length_flatten, List.map_map]
  have : ((chunks bs ps).map (List.length ∘ fun psb =>
      psb.map (fun p => maxSimCell q (padTo d (maxLen psb) p))))
      = (chunks bs ps).map List.length := by
    refine List.map_congr_left (fun psb _ => ?_)
    simp [Function.comp]
  rw [this, ← List.length_flatten, chunks_flatten bs hbs ps]

/-- `getD` through `map`, below the length. -/
theorem getD_map_of_lt (f : α → β) (l : List α) (c : Nat)
    (h : c < l.length) (d0 : β) (dα : α) :
    (l.map f).getD c d0 = f (l.getD c dα) := by
  induction l generalizing c with
  | nil => cases h
  | cons a l ih =>
    cases c with
    | zero => rfl
    | succ c =>
      simp only [List.map_cons, List.getD_cons_succ]
      exact ih c (by simpa using h)

/-- `getD` through `take`, below the prefix length. -/
theorem getD_take_of_lt (l : List α) (bs c : Nat) (h : c < bs) (dα : α) :
    (l.take bs).getD c dα = l.getD c dα := by
  induction l generalizing bs c with
  | nil => simp
  | cons a l ih =>
    cases bs with
    | zero => cases h
    | succ bs =>
      cases c with
      | zero => rfl
      | succ c =>
        simp only [List.take_succ_cons, List.getD_cons_succ]
        exact ih bs c (by omega)

/-- `getD` through `drop`. -/
theorem getD_drop_add (l : List α) (n c : Nat) (dα : α) :
    (l.drop n).getD c dα = l.getD (n + c) dα := by
  induction l generalizing n with
  | nil => simp
  | cons a l ih =>
    cases n with
    | zero => simp
    | succ n =>
      simp only [List.drop_succ_cons, List.getD_cons_succ,
        Nat.succ_add]
      exact ih n

/-- Indexing into the flattened per-chunk blocks: entry `c` is computed by
the block function `F` applied to the chunk containing position `c` (the
slice `l[bs*(c/bs) : bs*(c/bs)+bs]`) and the element `l[c]` itself. -/
theorem chunksGo_blocks_getD (bs : Nat) (hbs : bs ≠ 0)
    (F : List α → α → β) (d0 : β) (dα : α) :
    ∀ (fuel : Nat) (l : List α) (c : Nat), l.length ≤ fuel → c < l.length →
      (((chunksGo fuel bs l).map (fun ch => ch.map (F ch))).flatten).getD c d0
        = F ((l.drop (bs * (c / bs))).take bs) (l.getD c dα) := by
  intro fuel
  induction fuel with
  | zero => intro l c hf hc; omega
  | succ fuel ih =>
    intro l c hf hc
    cases l with
    | nil => simp at hc
    | cons a l0 =>
      rw [chunksGo_cons_eq, List.map_cons, List.flatten_cons]
      by_cases hcb : c < bs
      · have hlt : c < (((a :: l0).take bs).map (F ((a :: l0).take bs))).length := by
          rw [List.length_map, List.length_take]
          simp only [List.length_cons] at hc ⊢
          omega
        rw [List.getD_append _ _ _ _ hlt,
          getD_map_of_lt _ _ _ (by simpa [List.length_take] using hlt) _ dα,
          getD_take_of_lt _ _ _ hcb,
          Nat.div_eq_of_lt hcb, Nat.mul_zero, List.drop_zero]
      · push_neg at hcb
        have hbsc : bs ≤ (a :: l0).length := by
          simp only [List.length_cons] at hc ⊢; omega
        have hlen : (((a :: l0).take bs).map (F ((a :: l0).take bs))).length = bs := by
          rw [List.length_map, List.length_take]; omega
        rw [List.getD_append_right _ _ _ _ (by omega), hlen,
          ih ((a :: l0).drop bs) (c - bs)
            (by simp only [List.length_drop, List.length_cons] at hf ⊢; omega)
            (by simp only [List.length_drop, List.length_cons] at hc ⊢; omega)]
        rw [List.drop_drop, getD_drop_add]
        have hdiv : c / bs = (c - bs) / bs + 1 :=
          Nat.div_eq_sub_div (Nat.pos_of_ne_zero hbs) hcb
        have h1 : bs + bs * ((c - bs) / bs) = bs * (c / bs) := by
          rw [hdiv]; ring
        have h2 : bs + (c - bs) = c := by omega
        rw [h1, h2]

/-- `chunks` version of `chunksGo_blocks_getD`. -/
theorem chunks_blocks_getD (bs : Nat) (hbs : bs ≠ 0)
    (F : List α → α → β) (d0 : β) (dα : α) (l : List α) (c : Nat)
    (hc : c < l.length) :
    (((chunks bs l).map (fun ch => ch.map (F ch))).flatten).getD c d0
      = F ((l.drop (bs * (c / bs))).take bs) (l.getD c dα) :=
  chunksGo_blocks_getD bs hbs F d0 dα l.length l c le_rfl hc

/-- The spec's MaxSim formula coincides syntactically with one cell of the
einsum/max/sum reduction; the two differ only in *which* passage matrix they
are applied to (padded in the code, unpadded in the spec). -/
theorem maxSimSpec_eq_maxSimCell (q p : List (List Int)) :
    maxSimSpec q p = maxSimCell q p := rfl

/-- `get_single_vector_scores` on accepted inputs: the matrix of pairwise
dot products. -/
theorem get_single_vector_scores_eq_map (qs ps : List (List Int))
    (hq : qs ≠ []) (hp : ps ≠ []) :
    get_single_vector_scores qs ps
      = .ok (qs.map (fun q => ps.map (fun p => dot q p))) := by
  unfold get_single_vector_scores
  rw [if_neg (by simpa using hq), if_neg (by simpa using hp)]

/-- Every error of `get_single_vector_scores` is a `ValueError`. -/
theorem get_single_vector_scores_error_kind {qs ps : List (List Int)}
    {e : EvalError} (h : get_single_vector_scores qs ps = .error e) :
    ∃ msg, e = .valueError msg := by
  unfold get_single_vector_scores at h
  by_cases h1 : qs.length = 0
  · rw [if_pos h1] at h; exact ⟨_, (Except.error.inj h).symm⟩
  rw [if_neg h1] at h
  by_cases h2 : ps.length = 0
  · rw [if_pos h2] at h; exact ⟨_, (Except.error.inj h).symm⟩
  rw [if_neg h2] at h; cases h

/-- Every error of `get_multi_vector_scores` is a `ValueError` (including
the one Python's `range` raises on a zero step). -/
theorem get_multi_vector_scores_error_kind {d : Nat}
    {qs ps : List (List (List Int))} {bs : Nat} {e : EvalError}
    (h : get_multi_vector_scores d qs ps bs = .error e) :
    ∃ msg, e = .valueError msg := by
  unfold get_multi_vector_scores at h
  by_cases h1 : qs.length = 0
  · rw [if_pos h1] at h; exact ⟨_, (Except.error.inj h).symm⟩
  rw [if_neg h1] at h
  by_cases h2 : ps.length = 0
  · rw [if_pos h2] at h; exact ⟨_, (Except.error.inj h).symm⟩
  rw [if_neg h2] at h
  by_cases h3 : bs = 0
  · rw [if_pos h3] at h; exact ⟨_, (Except.error.inj h).symm⟩
  rw [if_neg h3] at h; cases h

/-- An `.ok` result of `get_multi_vector_scores` has one row per query. -/
theorem length_of_multi_ok {d : Nat} {qs ps : List (List (List Int))}
    {bs : Nat} {m : List (List Int)}
    (h : get_multi_vector_scores d qs ps bs = .ok m) :
    m.length = qs.length := by
  obtain ⟨hq, hp, hbs⟩ := get_multi_vector_scores_ok_cond h
  rw [get_multi_vector_scores_eq_map d qs ps bs hq hp hbs] at h
  rw [← Except.ok.inj h, List.length_map]

/-- An `.ok` result of `get_single_vector_scores` has one row per query. -/
theorem length_of_single_ok {qs ps : List (List Int)} {m : List (List Int)}
    (h : get_single_vector_scores qs ps = .ok m) :
    m.length = qs.length := by
  unfold get_single_vector_scores at h
  by_cases h1 : qs.length = 0
  · rw [if_pos h1] at h; cases h
  rw [if_neg h1] at h
  by_cases h2 : ps.length = 0
  · rw [if_pos h2] at h; cases h
  rw [if_neg h2] at h
  rw [← Except.ok.inj h, List.length_map]

/-- Folding `max` over a nonempty constant list gives the constant. -/
theorem foldr_max_of_all_eq (L : Nat) :
    ∀ (l : List Nat), l ≠ [] → (∀ x ∈ l, x = L) → l.foldr max 0 = L := by
  intro l
  induction l with
  | nil => intro h; exact absurd rfl h
  | cons a l ih =>
    intro _ hall
    cases l with
    | nil =>
      simp only [List.foldr_cons, List.foldr_nil, Nat.max_zero]
      exact hall a (List.mem_cons_self a [])
    | cons b l =>
      rw [List.foldr_cons, ih (by simp) (fun x hx => hall x (List.mem_cons_of_mem a hx)),
        hall a (List.mem_cons_self a _)]
      exact Nat.max_self L

/-- If every token matrix of a nonempty batch has `L` rows, the batch's pad
length is `L`. -/
theorem maxLen_of_all_eq (psb : List (List (List Int))) (L : Nat)
    (hne : psb ≠ []) (hall : ∀ p ∈ psb, p.length = L) : maxLen psb = L := by
  unfold maxLen
  refine foldr_max_of_all_eq L _ (by simpa using hne) ?_
  intro x hx
  obtain ⟨p, hp, rfl⟩ := List.mem_map.mp hx
  exact hall p hp

/-- Padding to a matrix's own length is the identity. -/
theorem padTo_self (d : Nat) (p : List (List Int)) :
    padTo d p.length p = p := by
  unfold padTo
  rw [Nat.sub_self, List.replicate_zero, List.append_nil]

/-- When every passage has the same token count, no passage-side padding
occurs and the batching collapses entirely: the result is the plain matrix
of MaxSim cells, independent of the batch size. -/
theorem get_multi_vector_scores_eq_unbatched (d : Nat)
    (qs ps : List (List (List Int))) (bs L : Nat)
    (hq : qs ≠ []) (hp : ps ≠ []) (hbs : bs ≠ 0)
    (hlen : ∀ p ∈ ps, p.length = L) :
    get_multi_vector_scores d qs ps bs
      = .ok (qs.map (fun q => ps.map (fun p => maxSimCell q p))) := by
  rw [get_multi_vector_scores_eq_map d qs ps bs hq hp hbs]
  congr 1
  refine List.map_congr_left (fun q _ => ?_)
  unfold mvRow
  have hblock : ∀ psb ∈ chunks bs ps,
      psb.map (fun p => maxSimCell q (padTo d (maxLen psb) p))
        = psb.map (fun p => maxSimCell q p) := by
    intro psb hpsb
    refine List.map_congr_left (fun p hpmem => ?_)
    have hpL : p.length = L :=
      hlen p (mem_of_mem_chunks bs hbs ps psb p hpsb hpmem)
    have hml : maxLen psb = L :=
      maxLen_of_all_eq psb L (ne_nil_of_mem_chunksGo bs hbs ps.length ps psb hpsb)
        (fun r hr => hlen r (mem_of_mem_chunks bs hbs ps psb r hpsb hr))
    rw [hml, ← hpL, padTo_self]
  rw [List.map_congr_left hblock, ← List.map_flatten, chunks_flatten bs hbs ps]

/-- Re-setting a mapped list at an index with the image of the original
entry changes nothing. -/
theorem map_set_getD_self (f : α → β) (l : List α) (i : Nat)
    (hi : i < l.length) (dα : α) :
    (l.map f).set i (f (l.getD i dα)) = l.map f := by
  induction l generalizing i with
  | nil => cases hi
  | cons a l ih =>
    cases i with
    | zero => rfl
    | succ i =>
      simp only [List.map_cons, List.set_cons_succ, List.getD_cons_succ]
      rw [ih i (by simpa using hi)]

/-! ### String and dict lemmas for `compute_metrics` -/

/-- The character data of an appended string. -/
theorem string_data_append (p x : String) :
    (p ++ x).data = p.data ++ x.data := by
  cases p; cases x; rfl

/-- Appending on the left of strings is cancellative. -/
theorem string_append_left_cancel (p a b : String)
    (h : p ++ a = p ++ b) : a = b := by
  cases p; cases a; cases b
  simp only [String.ext_iff] at h ⊢
  rw [string_data_append, string_data_append] at h
  exact List.append_cancel_left h

/-- Two strings with different two-character prefixes stay different after
appending anything to each. -/
theorem append_ne_of_take_two_ne (p q x y : String)
    (hp : 2 ≤ p.data.length) (hq : 2 ≤ q.data.length)
    (hne : p.data.take 2 ≠ q.data.take 2) : p ++ x ≠ q ++ y := by
  intro h
  apply hne
  have hd : p.data ++ x.data = q.data ++ y.data := by
    rw [← string_data_append, ← string_data_append, h]
  calc p.data.take 2 = (p.data ++ x.data).take 2 :=
        (List.take_append_of_le_length hp).symm
    _ = (q.data ++ y.data).take 2 := by rw [hd]
    _ = q.data.take 2 := List.take_append_of_le_length hq

/-- The keys produced by one renaming comprehension. -/
theorem renamePairs_keys (tag : String) (d : List (String × α)) :
    (renamePairs tag d).map Prod.fst
      = (d.map (fun kv => kpart kv.1)).map (fun s => tag ++ s) := by
  unfold renamePairs
  rw [List.map_map, List.map_map]
  rfl

/-- Distinct `k` parts within one metric dict give distinct renamed keys. -/
theorem nodup_renamePairs_keys (tag : String) (d : List (String × α))
    (h : (d.map (fun kv => kpart kv.1)).Nodup) :
    ((renamePairs tag d).map Prod.fst).Nodup := by
  rw [renamePairs_keys]
  exact h.map (fun a b hab => string_append_left_cancel tag a b hab)

/-- Key groups renamed with tags that differ within their first two
characters are disjoint. -/
theorem disjoint_renamePairs_keys (p q : String)
    (hp : 2 ≤ p.data.length) (hq : 2 ≤ q.data.length)
    (hne : p.data.take 2 ≠ q.data.take 2) (d e : List (String × α)) :
    ((renamePairs p d).map Prod.fst).Disjoint
      ((renamePairs q e).map Prod.fst) := by
  intro k hk1 hk2
  rw [renamePairs_keys] at hk1 hk2
  obtain ⟨a, _, ha⟩ := List.mem_map.mp hk1
  obtain ⟨b, _, hb⟩ := List.mem_map.mp hk2
  exact append_ne_of_take_two_ne p q a b hp hq hne (ha.trans hb.symm)

/-- Inserting a fresh key into a dict appends the pair. -/
theorem dictInsert_of_not_mem (acc : List (String × α)) (kv : String × α)
    (h : ¬ ((acc.map Prod.fst).contains kv.1 = true)) :
    dictInsert acc kv = acc ++ [kv] := by
  unfold dictInsert
  rw [if_neg h]

/-- Folding dict insertion over pairs with pairwise distinct keys appends
each pair: nothing is overridden or dropped. -/
theorem foldl_dictInsert_of_nodup (l : List (String × α)) :
    ∀ acc : List (String × α), ((acc ++ l).map Prod.fst).Nodup →
      l.foldl dictInsert acc = acc ++ l := by
  induction l with
  | nil => intro acc _; simp
  | cons kv l ih =>
    intro acc hacc
    have hmap : (acc ++ kv :: l).map Prod.fst
        = acc.map Prod.fst ++ kv.1 :: l.map Prod.fst := by simp
    rw [hmap, List.nodup_append] at hacc
    obtain ⟨hn1, hn2, hdisj⟩ := hacc
    have hnotin : ¬ ((acc.map Prod.fst).contains kv.1 = true) := by
      intro hin
      have hmem : kv.1 ∈ acc.map Prod.fst := by simpa using hin
      exact hdisj hmem (List.mem_cons_self kv.1 _)
    rw [List.foldl_cons, dictInsert_of_not_mem acc kv hnotin,
      ih (acc ++ [kv]) ?_]
    · simp
    · have hmap2 : ((acc ++ [kv]) ++ l).map Prod.fst
          = acc.map Prod.fst ++ kv.1 :: l.map Prod.fst := by simp
      rw [hmap2, List.nodup_append]
      exact ⟨hn1, hn2, hdisj⟩

/-- A pair list with pairwise distinct keys *is* the dict it builds. -/
theorem dictOfPairs_eq_self (l : List (String × α))
    (h : (l.map Prod.fst).Nodup) : dictOfPairs l = l := by
  unfold dictOfPairs
  rw [foldl_dictInsert_of_nodup l [] (by simpa using h)]
  simp

/-- `splitOnChar` on a list avoiding the separator gives the single piece. -/
theorem splitOnChar_not_mem (c : Char) (l : List Char) (h : c ∉ l) :
    splitOnChar c l = [l] := by
  induction l with
  | nil => rfl
  | cons a l ih =>
    have hac : ¬ (a = c) := fun hac => h (hac ▸ List.mem_cons_self a l)
    rw [splitOnChar, if_neg hac,
      ih (fun hc => h (List.mem_cons_of_mem a hc))]

/-- `splitOnChar` at the first separator occurrence. -/
theorem splitOnChar_append_cons (c : Char) (a b : List Char) (h : c ∉ a) :
    splitOnChar c (a ++ c :: b) = a :: splitOnChar c b := by
  induction a with
  | nil => simp [splitOnChar]
  | cons x a ih =>
    have hxc : ¬ (x = c) := fun hxc => h (hxc ▸ List.mem_cons_self x a)
    rw [List.cons_append, splitOnChar, if_neg hxc,
      ih (fun hc => h (List.mem_cons_of_mem x hc))]

/-- On a key of the form `name@k` (no `'@'` inside either part), the
`k.split('@')[1]` expression recovers `k`. -/
theorem kpart_of_wellformed (n k : String)
    (hn : '@' ∉ n.data) (hk : '@' ∉ k.data) :
    kpart (n ++ "@" ++ k) = k := by
  unfold kpart
  have hdata : (n ++ "@" ++ k).data = n.data ++ '@' :: k.data := by
    rw [string_data_append, string_data_append, List.append_assoc]
    rfl
  rw [hdata, splitOnChar_append_cons '@' n.data k.data hn,
    splitOnChar_not_mem '@' k.data hk]
  cases k; rfl

/-! ### Claim theorems -/

/-- C1, counterexample: the multi-vector score is *not* the MaxSim value of
the claim.  With one query token `[1]` and passages `[[-1]]` and
`[[-1], [-1]]` in one batch, the shorter passage is zero-padded, the
padding row offers dot product `0` to the maximum, and the code returns `0`
at position `(0, 0)` — while the MaxSim value of the claim is `-1`. -/
theorem C1_maxsim_counterexample :
    get_multi_vector_scores 1 [[[1]]] [[[-1]], [[-1], [-1]]] 128
        = .ok [[0, -1]]
      ∧ maxSimSpec [[1]] [[-1]] = -1
      ∧ ((0 : Int) ≠ -1) := by decide

/-- C1 (amended): for every nonempty `qs` and `ps` with nonempty token
matrices, positive batch size, `b < len qs` and `c < len ps`, the score at
`(b, c)` equals the MaxSim value computed against the *zero-padded* passage
`c`: the sum over the token vectors of query `b` of the maximum dot product
over the token vectors of passage `c` after zero-padding it to the longest
token count within its passage batch (the slice
`ps[bs*(c/bs) : bs*(c/bs)+bs]`). -/
theorem C1_maxsim_amended (d : Nat) (qs ps : List (List (List Int)))
    (bs b c : Nat) (hbs : bs ≠ 0) (hq : qs ≠ []) (hp : ps ≠ [])
    (hpne : ∀ p ∈ ps, p ≠ []) (hb : b < qs.length) (hc : c < ps.length) :
    ∃ m, get_multi_vector_scores d qs ps bs = .ok m ∧
      (m.getD b []).getD c 0
        = maxSimSpec (qs.getD b [])
            (padTo d (maxLen ((ps.drop (bs * (c / bs))).take bs))
              (ps.getD c [])) := by
  refine ⟨qs.map (mvRow d bs ps),
    get_multi_vector_scores_eq_map d qs ps bs hq hp hbs, ?_⟩
  rw [getD_map_of_lt (mvRow d bs ps) qs b hb [] []]
  unfold mvRow
  rw [chunks_blocks_getD bs hbs
    (fun psb p => maxSimCell (qs.getD b []) (padTo d (maxLen psb) p))
    0 [] ps c hc]
  rw [maxSimSpec_eq_maxSimCell]

/-- C1 amended, witness: query `[[2]]`, passages `[[-3]]` and `[[5], [1]]`
in one batch of 128; the score at `(0, 0)` is the MaxSim against the padded
passage `[[-3], [0]]`, namely `max (-6) 0 = 0`. -/
theorem C1_maxsim_amended_witness :
    ∃ m, get_multi_vector_scores 1 [[[2]]] [[[-3]], [[5], [1]]] 128 = .ok m ∧
      (m.getD 0 []).getD 0 0
        = maxSimSpec ([[[2]]] : List (List (List Int))).head!
            (padTo 1
              (maxLen ((([[[-3]], [[5], [1]]] :
                List (List (List Int))).drop (128 * (0 / 128))).take 128))
              [[-3]]) :=
  C1_maxsim_amended 1 [[[2]]] [[[-3]], [[5], [1]]] 128 0 0 (by decide)
    (by decide) (by decide) (by decide) (by decide) (by decide)

/-- C2, counterexample: the result of `get_multi_vector_scores` does depend
on the batch size.  With query `[[1]]` and passages `[[-1]]` and
`[[-1], [-1]]`, batch size 1 puts each passage alone in its batch (no
padding: score `-1` for the first passage) while batch size 128 pads the
first passage with a zero row (score `0`). -/
theorem C2_batch_counterexample :
    get_multi_vector_scores 1 [[[1]]] [[[-1]], [[-1], [-1]]] 1
      ≠ get_multi_vector_scores 1 [[[1]]] [[[-1]], [[-1], [-1]]] 128 := by
  decide

/-- C2 (amended): when all passages have the same token count — so the
per-batch zero-padding of passages is vacuous — the result of
`get_multi_vector_scores` is the same for any two positive batch sizes.
(The query-side padding never affects scores, whatever the batch size.) -/
theorem C2_batch_invariant_amended (d : Nat)
    (qs ps : List (List (List Int))) (bs1 bs2 L : Nat)
    (h1 : bs1 ≠ 0) (h2 : bs2 ≠ 0) (hq : qs ≠ []) (hp : ps ≠ [])
    (hlen : ∀ p ∈ ps, p.length = L) :
    get_multi_vector_scores d qs ps bs1
      = get_multi_vector_scores d qs ps bs2 := by
  rw [get_multi_vector_scores_eq_unbatched d qs ps bs1 L hq hp h1 hlen,
    get_multi_vector_scores_eq_unbatched d qs ps bs2 L hq hp h2 hlen]

/-- C2 amended, witness: two single-token passages, batch sizes 1 and 128
agree. -/
theorem C2_batch_invariant_witness :
    get_multi_vector_scores 1 [[[1]]] [[[2]], [[3]]] 1
      = get_multi_vector_scores 1 [[[1]]] [[[2]], [[3]]] 128 :=
  C2_batch_invariant_amended 1 [[[1]]] [[[2]], [[3]]] 1 128 1 (by decide)
    (by decide) (by decide) (by decide) (by decide)

/-- C3: for nonempty lists of query and passage vectors of one common
dimension, the single-vector score matrix has the dot product
`dot qs[b] ps[c]` at every position `(b, c)`. -/
theorem C3_single_vector_dot (dim : Nat) (qs ps : List (List Int))
    (b c : Nat) (hq : qs ≠ []) (hp : ps ≠ [])
    (hqd : ∀ q ∈ qs, q.length = dim) (hpd : ∀ p ∈ ps, p.length = dim)
    (hb : b < qs.length) (hc : c < ps.length) :
    ∃ m, get_single_vector_scores qs ps = .ok m ∧
      (m.getD b []).getD c 0 = dot (qs.getD b []) (ps.getD c []) := by
  refine ⟨_, get_single_vector_scores_eq_map qs ps hq hp, ?_⟩
  rw [getD_map_of_lt _ qs b hb [] [],
    getD_map_of_lt _ ps c hc 0 []]

/-- C3, witness. -/
theorem C3_single_vector_dot_witness :
    ∃ m, get_single_vector_scores [[1, 2]] [[3, 4], [5, 6]] = .ok m ∧
      (m.getD 0 []).getD 1 0 = dot [1, 2] [5, 6] :=
  C3_single_vector_dot 2 [[1, 2]] [[3, 4], [5, 6]] 0 1 (by decide)
    (by decide) (by decide) (by decide) (by decide) (by decide)

/-- C4: on accepted inputs both scorers return a matrix of shape
`(len qs, len ps)`: one row per query, each of length `len ps`. -/
theorem C4_score_shape (dim d : Nat) (qsv psv : List (List Int))
    (qs ps : List (List (List Int))) (bs : Nat)
    (hqv : qsv ≠ []) (hpv : psv ≠ []) (hq : qs ≠ []) (hp : ps ≠ [])
    (hbs : bs ≠ 0) :
    (∃ m, get_single_vector_scores qsv psv = .ok m ∧
        m.length = qsv.length ∧ ∀ r ∈ m, r.length = psv.length)
    ∧ (∃ m, get_multi_vector_scores d qs ps bs = .ok m ∧
        m.length = qs.length ∧ ∀ r ∈ m, r.length = ps.length) := by
  constructor
  · refine ⟨_, get_single_vector_scores_eq_map qsv psv hqv hpv,
      List.length_map _ _, ?_⟩
    intro r hr
    obtain ⟨q, _, rfl⟩ := List.mem_map.mp hr
    exact List.length_map _ _
  · refine ⟨_, get_multi_vector_scores_eq_map d qs ps bs hq hp hbs,
      List.length_map _ _, ?_⟩
    intro r hr
    obtain ⟨q, _, rfl⟩ := List.mem_map.mp hr
    exact length_mvRow d bs hbs ps q

/-- C4, witness. -/
theorem C4_score_shape_witness :
    (∃ m, get_single_vector_scores [[1, 2]] [[3, 4], [5, 6]] = .ok m ∧
        m.length = ([[1, 2]] : List (List Int)).length ∧
        ∀ r ∈ m, r.length = ([[3, 4], [5, 6]] : List (List Int)).length)
    ∧ (∃ m, get_multi_vector_scores 1 [[[1]]] [[[2]], [[3], [4]]] 128 = .ok m ∧
        m.length = ([[[1]]] : List (List (List Int))).length ∧
        ∀ r ∈ m, r.length
          = ([[[2]], [[3], [4]]] : List (List (List Int))).length) :=
  C4_score_shape 2 1 [[1, 2]] [[3, 4], [5, 6]] [[[1]]] [[[2]], [[3], [4]]]
    128 (by decide) (by decide) (by decide) (by decide) (by decide)

/-- C5, counterexample: `get_multi_vector_scores` raises a `ValueError`
with both input lists nonempty, when `batch_size = 0` — Python's
`range(0, n, 0)` raises `ValueError: range() arg 3 must not be zero` — so
"raises a ValueError if and only if qs is empty or ps is empty" fails in
the only-if direction. -/
theorem C5_errors_counterexample :
    get_multi_vector_scores 1 [[[1]]] [[[1]]] 0
        = .error (.valueError "range() arg 3 must not be zero")
      ∧ ([[[1]]] : List (List (List Int))) ≠ [] := by decide

/-- C5 (amended): `get_single_vector_scores` errors exactly on an empty
query or passage list; `get_multi_vector_scores` does so too provided the
batch size is positive (at batch size 0 it raises the `range` `ValueError`
even on nonempty inputs); and every error either function raises, for any
batch size, is a `ValueError` — this code raises no other error kind. -/
theorem C5_errors_amended (qsv psv : List (List Int)) (d bs : Nat)
    (qs ps : List (List (List Int))) (hbs : bs ≠ 0) :
    ((∃ e, get_single_vector_scores qsv psv = .error e)
        ↔ (qsv = [] ∨ psv = []))
    ∧ (∀ e, get_single_vector_scores qsv psv = .error e →
        ∃ msg, e = .valueError msg)
    ∧ ((∃ e, get_multi_vector_scores d qs ps bs = .error e)
        ↔ (qs = [] ∨ ps = []))
    ∧ (∀ e bs2, get_multi_vector_scores d qs ps bs2 = .error e →
        ∃ msg, e = .valueError msg) := by
  refine ⟨?_, fun e h => get_single_vector_scores_error_kind h, ?_,
    fun e bs2 h => get_multi_vector_scores_error_kind h⟩
  · constructor
    · intro ⟨e, he⟩
      unfold get_single_vector_scores at he
      by_cases h1 : qsv.length = 0
      · exact Or.inl (List.length_eq_zero.mp h1)
      rw [if_neg h1] at he
      by_cases h2 : psv.length = 0
      · exact Or.inr (List.length_eq_zero.mp h2)
      rw [if_neg h2] at he; cases he
    · intro h
      unfold get_single_vector_scores
      rcases h with h | h
      · subst h; exact ⟨_, rfl⟩
      · subst h
        by_cases h1 : qsv.length = 0
        · rw [if_pos h1]; exact ⟨_, rfl⟩
        · rw [if_neg h1]; exact ⟨_, rfl⟩
  · constructor
    · intro ⟨e, he⟩
      unfold get_multi_vector_scores at he
      by_cases h1 : qs.length = 0
      · exact Or.inl (List.length_eq_zero.mp h1)
      rw [if_neg h1] at he
      by_cases h2 : ps.length = 0
      · exact Or.inr (List.length_eq_zero.mp h2)
      rw [if_neg h2, if_neg hbs] at he; cases he
    · intro h
      unfold get_multi_vector_scores
      rcases h with h | h
      · subst h; exact ⟨_, rfl⟩
      · subst h
        by_cases h1 : qs.length = 0
        · rw [if_pos h1]; exact ⟨_, rfl⟩
        · rw [if_neg h1]; exact ⟨_, rfl⟩

/-- C5 amended, witness: at batch size 128, nonempty inputs produce no
error and an empty passage list produces the `ValueError`. -/
theorem C5_errors_amended_witness :
    ((∃ e, get_single_vector_scores [[1]] [] = .error e)
        ↔ (([[1]] : List (List Int)) = [] ∨ ([] : List (List Int)) = []))
    ∧ (∀ e, get_single_vector_scores [[1]] [] = .error e →
        ∃ msg, e = .valueError msg)
    ∧ ((∃ e, get_multi_vector_scores 1 [[[1]]] [[[2]]] 128 = .error e)
        ↔ (([[[1]]] : List (List (List Int))) = []
            ∨ ([[[2]]] : List (List (List Int))) = []))
    ∧ (∀ e bs2, get_multi_vector_scores 1 [[[1]]] [[[2]]] bs2 = .error e →
        ∃ msg, e = .valueError msg) :=
  C5_errors_amended [[1]] [] 1 128 [[[1]]] [[[2]]] (by decide)

/-- C10: appending any number of all-zero token vectors to any one query's
token matrix leaves the whole returned score matrix unchanged: a zero query
token has dot product 0 with every passage token, so it contributes a
maximum of 0 to its query's sums. -/
theorem C10_zero_padding_invariant (d bs t i : Nat)
    (qs ps : List (List (List Int))) (hbs : bs ≠ 0) (hq : qs ≠ [])
    (hp : ps ≠ []) (hi : i < qs.length) :
    get_multi_vector_scores d
        (qs.set i (qs.getD i [] ++ List.replicate t (List.replicate d 0)))
        ps bs
      = get_multi_vector_scores d qs ps bs := by
  have hq2 : qs.set i (qs.getD i [] ++ List.replicate t (List.replicate d 0))
      ≠ [] := by
    rw [← List.length_pos, List.length_set]
    exact List.length_pos.mpr hq
  rw [get_multi_vector_scores_eq_map d _ ps bs hq2 hp hbs,
    get_multi_vector_scores_eq_map d qs ps bs hq hp hbs]
  congr 1
  rw [List.map_set]
  have hrow : mvRow d bs ps
      (qs.getD i [] ++ List.replicate t (List.replicate d 0))
      = mvRow d bs ps (qs.getD i []) := by
    unfold mvRow
    simp only [maxSimCell_append_zero_rows]
  rw [hrow, map_set_getD_self (mvRow d bs ps) qs i hi []]

/-- C6: `compute_metrics` is a pure renaming pass.  Provided the `k` parts
of the keys within each metric dict are pairwise distinct (as they are for
mteb's `"<NAME>@<k>"` keys over its distinct `k_values`), the returned dict
is exactly the six renamed dicts in source order — every entry `(key, v)`
reappears as `(<tag>_at_<kpart key>, v)`, nothing is dropped, overridden,
added, or altered; and on a well-formed key `name@k` the renaming produces
exactly `<tag>_at_<k>`. -/
theorem C6_compute_metrics_renaming {α : Type}
    (ndcg mapd recalld precision naucs : List (String × α))
    (mrr : List (String × α) × List (String × α))
    (h1 : (ndcg.map (fun kv => kpart kv.1)).Nodup)
    (h2 : (mapd.map (fun kv => kpart kv.1)).Nodup)
    (h3 : (recalld.map (fun kv => kpart kv.1)).Nodup)
    (h4 : (precision.map (fun kv => kpart kv.1)).Nodup)
    (h5 : (naucs.map (fun kv => kpart kv.1)).Nodup)
    (h6 : (mrr.1.map (fun kv => kpart kv.1)).Nodup) :
    compute_metrics ndcg mapd recalld precision naucs mrr
        = renamePairs "ndcg_at_" ndcg ++ renamePairs "map_at_" mapd
          ++ renamePairs "recall_at_" recalld
          ++ renamePairs "precision_at_" precision
          ++ renamePairs "mrr_at_" mrr.1 ++ renamePairs "naucs_at_" naucs
      ∧ (∀ n k : String, '@' ∉ n.data → '@' ∉ k.data →
          kpart (n ++ "@" ++ k) = k) := by
  refine ⟨?_, fun n k hn hk => kpart_of_wellformed n k hn hk⟩
  unfold compute_metrics
  apply dictOfPairs_eq_self
  simp only [List.map_append, List.nodup_append, List.disjoint_append_left,
    List.disjoint_append_right]
  repeat' apply And.intro
  all_goals first
    | (apply nodup_renamePairs_keys; assumption)
    | (apply disjoint_renamePairs_keys <;> decide)

/-- C6, witness: a concrete run with one or two entries per dict. -/
theorem C6_compute_metrics_witness :
    compute_metrics [("NDCG@1", (10 : Int)), ("NDCG@10", 11)]
          [("MAP@1", 20)] [("Recall@1", 30)] [("P@1", 40)]
          [("nAUC_NDCG@1", 60)] ([("MRR@1", 50)], [])
        = [("ndcg_at_1", 10), ("ndcg_at_10", 11), ("map_at_1", 20),
           ("recall_at_1", 30), ("precision_at_1", 40), ("mrr_at_1", 50),
           ("naucs_at_1", 60)]
      ∧ (∀ n k : String, '@' ∉ n.data → '@' ∉ k.data →
          kpart (n ++ "@" ++ k) = k) :=
  C6_compute_metrics_renaming [("NDCG@1", (10 : Int)), ("NDCG@10", 11)]
    [("MAP@1", 20)] [("Recall@1", 30)] [("P@1", 40)] [("nAUC_NDCG@1", 60)]
    ([("MRR@1", 50)], []) (by decide) (by decide) (by decide) (by decide)
    (by decide) (by decide)

/-- C7: the scoring entry points are stateless: the state-passing
embeddings of `evaluate`, `get_single_vector_scores` and
`get_multi_vector_scores` return the evaluator (all four fields) and both
input lists unchanged, and their score component is exactly the functional
result — scores exist only as the return value. -/
theorem C7_scoring_stateless (self : CustomRetrievalEvaluator)
    (qs ps : List Tensor) (qsv psv : List (List Int)) (d bs : Nat)
    (qsm psm : List (List (List Int))) :
    (evaluateSt self qs ps).2 = (self, qs, ps)
    ∧ (evaluateSt self qs ps).1 = evaluate self qs ps
    ∧ (get_single_vector_scoresSt self qsv psv).2 = (self, qsv, psv)
    ∧ (get_single_vector_scoresSt self qsv psv).1
        = get_single_vector_scores qsv psv
    ∧ (get_multi_vector_scoresSt self d qsm psm bs).2 = (self, qsm, psm)
    ∧ (get_multi_vector_scoresSt self d qsm psm bs).1
        = get_multi_vector_scores d qsm psm bs :=
  ⟨rfl, rfl, rfl, rfl, rfl, rfl⟩

/-- C8: scoring is deterministic: equal evaluator configurations and equal
inputs give equal score matrices, for `evaluate` and for both scorers. -/
theorem C8_scoring_deterministic (self self2 : CustomRetrievalEvaluator)
    (qs qs2 ps ps2 : List Tensor) (qsv qsv2 psv psv2 : List (List Int))
    (d d2 bs bs2 : Nat) (qsm qsm2 psm psm2 : List (List (List Int)))
    (h1 : self = self2) (h2 : qs = qs2) (h3 : ps = ps2)
    (h4 : qsv = qsv2) (h5 : psv = psv2) (h6 : d = d2) (h7 : bs = bs2)
    (h8 : qsm = qsm2) (h9 : psm = psm2) :
    evaluate self qs ps = evaluate self2 qs2 ps2
    ∧ get_single_vector_scores qsv psv = get_single_vector_scores qsv2 psv2
    ∧ get_multi_vector_scores d qsm psm bs
        = get_multi_vector_scores d2 qsm2 psm2 bs2 := by
  subst h1 h2 h3 h4 h5 h6 h7 h8 h9
  exact ⟨rfl, rfl, rfl⟩

/-- C8, witness. -/
theorem C8_scoring_deterministic_witness :
    evaluate ⟨false, [], [], "cpu"⟩ [.vec [1]] [.vec [2]]
        = evaluate ⟨false, [], [], "cpu"⟩ [.vec [1]] [.vec [2]]
    ∧ get_single_vector_scores [[1]] [[2]]
        = get_single_vector_scores [[1]] [[2]]
    ∧ get_multi_vector_scores 1 [[[1]]] [[[2]]] 128
        = get_multi_vector_scores 1 [[[1]]] [[[2]]] 128 :=
  C8_scoring_deterministic ⟨false, [], [], "cpu"⟩ ⟨false, [], [], "cpu"⟩
    [.vec [1]] [.vec [1]] [.vec [2]] [.vec [2]] [[1]] [[1]] [[2]] [[2]]
    1 1 128 128 [[[1]]] [[[1]]] [[[2]]] [[[2]]] rfl rfl rfl rfl rfl rfl
    rfl rfl rfl

/-- C9: the `assert scores.shape[0] == len(qs)` in `evaluate` never fails:
whatever the inputs, `evaluate` either returns scores or propagates a
scorer `ValueError`; the assertion-failure branch is unreachable, because
both scorers return one score row per query when they return at all. -/
theorem C9_assert_unreachable (self : CustomRetrievalEvaluator)
    (qs ps : List Tensor) :
    ∀ msg, evaluate self qs ps ≠ .error (.assertionError msg) := by
  intro msg h
  simp only [evaluate, evaluateSt] at h
  by_cases hm : self.is_multi_vector = true
  · rw [if_pos hm] at h
    cases hok : get_multi_vector_scores ((qs.headD (Tensor.mat [])).dim)
        (qs.map Tensor.toMat) (ps.map Tensor.toMat) 128 with
    | error e =>
      obtain ⟨msg2, rfl⟩ := get_multi_vector_scores_error_kind hok
      rw [hok] at h
      simp only [evaluate_finish] at h
      exact EvalError.noConfusion (Except.error.inj h)
    | ok m =>
      rw [hok] at h
      have hlen : m.length = qs.length := by
        rw [length_of_multi_ok hok, List.length_map]
      simp only [evaluate_finish] at h
      rw [if_pos hlen] at h
      cases h
  · rw [if_neg hm] at h
    cases hok : get_single_vector_scores (qs.map Tensor.toVec)
        (ps.map Tensor.toVec) with
    | error e =>
      obtain ⟨msg2, rfl⟩ := get_single_vector_scores_error_kind hok
      rw [hok] at h
      simp only [evaluate_finish] at h
      exact EvalError.noConfusion (Except.error.inj h)
    | ok m =>
      rw [hok] at h
      have hlen : m.length = qs.length := by
        rw [length_of_single_ok hok, List.length_map]
      simp only [evaluate_finish] at h
      rw [if_pos hlen] at h
      cases h

/-- C10, witness: appending two zero token rows to the only query changes
nothing. -/
theorem C10_zero_padding_witness :
    get_multi_vector_scores 1
        (([[[1]]] : List (List (List Int))).set 0
          (([[[1]]] : List (List (List Int))).getD 0 []
            ++ List.replicate 2 (List.replicate 1 0)))
        [[[-1]], [[2]]] 128
      = get_multi_vector_scores 1 [[[1]]] [[[-1]], [[2]]] 128 :=
  C10_zero_padding_invariant 1 128 2 0 [[[1]]] [[[-1]], [[2]]] (by decide)
    (by decide) (by decide) (by decide)

end Colpali
